import Mathlib

/-!
Verification development for the jahia2wp box parser
(`src/parser/box.py`) and the htaccess redirection helper
(`src/manage_redirections.py`).

The Python code is shallowly embedded: strings are Lean `String`s
(Python `str.split`, `in`, `rfind` and list indexing are modelled by
the `pySplit`, `pyIn`, `lastIdx` and `pyIdxE` functions below, all of
which follow CPython semantics on non-empty separators), dictionaries
are association lists with in-place overwrite (`dictInsert`), and code
that can raise returns `Except String`.
-/

/-! ## Python string primitives -/

/-- Index of the first occurrence of `sep` as a contiguous sublist of `s`
(CPython `str.find` for a non-empty needle), `none` when absent. -/
def firstIdx (sep : List Char) : List Char → Option Nat
  | [] => if sep.isPrefixOf ([] : List Char) then some 0 else none
  | c :: rest =>
    if sep.isPrefixOf (c :: rest) then some 0
    else (firstIdx sep rest).map (· + 1)

/-- Index of the last occurrence of `sep` in `s` (CPython `str.rfind`). -/
def lastIdx (sep : List Char) : List Char → Option Nat
  | [] => if sep.isPrefixOf ([] : List Char) then some 0 else none
  | c :: rest =>
    match lastIdx sep rest with
    | some i => some (i + 1)
    | none => if sep.isPrefixOf (c :: rest) then some 0 else none

/-- CPython `sub in s` substring test. -/
def pyIn (sub s : String) : Bool := (firstIdx sub.data s.data).isSome

/-- Fuelled worker for `pySplit`; the fuel `s.length + 1` always suffices
for a non-empty separator. -/
def pySplitAux (sep : List Char) : Nat → List Char → List (List Char)
  | 0, s => [s]
  | fuel + 1, s =>
    match firstIdx sep s with
    | none => [s]
    | some i => s.take i :: pySplitAux sep fuel (s.drop (i + sep.length))

/-- CPython `s.split(sep)` for a non-empty separator: cut at every
leftmost non-overlapping occurrence. -/
def pySplit (sep s : List Char) : List (List Char) :=
  pySplitAux sep (s.length + 1) s

/-- String-level `s.split(sep)`. -/
def pySplitS (sep s : String) : List String :=
  (pySplit sep.data s.data).map String.mk

/-- CPython list indexing `l[i]`, raising `IndexError` out of range. -/
def pyIdxE {α : Type} (l : List α) (i : Nat) : Except String α :=
  match l.get? i with
  | some a => Except.ok a
  | none => Except.error "IndexError: list index out of range"

/-- CPython `sep.join(l)`. -/
def pyJoin (sep : String) : List String → String
  | [] => ""
  | [x] => x
  | x :: rest => x ++ sep ++ pyJoin sep rest

/-- CPython `''.join(l)`. -/
def joinS : List String → String
  | [] => ""
  | x :: rest => x ++ joinS rest

/-! ## Box type resolution (`Box.set_type`, `Box.types`, `Box.__init__`) -/

/-- The `Box.types` mapping of known box types from Jahia to WP
(`src/parser/box.py`, lines 42-66). -/
def jahia_box_types : List (String × String) :=
  [("epfl:textBox", "text"),
   ("epfl:coloredTextBox", "coloredText"),
   ("epfl:peopleListBox", "peopleList"),
   ("epfl:infoscienceBox", "infoscience"),
   ("epfl:infoscienceFilteredBox", "infoscienceFilter"),
   ("epfl:actuBox", "actu"),
   ("epfl:mementoBox", "memento"),
   ("epfl:faqBox", "faq"),
   ("epfl:toggleBox", "toggle"),
   ("epfl:htmlBox", "include"),
   ("epfl:contactBox", "contact"),
   ("epfl:xmlBox", "xml"),
   ("epfl:linksBox", "links"),
   ("epfl:rssBox", "rss"),
   ("epfl:filesBox", "files"),
   ("epfl:bigButtonsBox", "buttons_box"),
   ("epfl:smallButtonsBox", "buttons_box"),
   ("epfl:snippetsBox", "snippets"),
   ("epfl:syntaxHighlightBox", "syntaxHighlight"),
   ("epfl:keyVisualBox", "keyVisual"),
   ("epfl:mapBox", "map"),
   ("epfl:gridBox", "grid"),
   ("epfl:oneColContainer", "oneColContainer")]

/-- Association-list lookup (a Python `dict` read / `in` test). -/
def lookupAssoc {α : Type} (l : List (String × α)) (k : String) : Option α :=
  match l with
  | [] => none
  | (k', v) :: rest => if k' = k then some v else lookupAssoc rest k

/-- `Box.set_type` (`src/parser/box.py`, lines 123-134): the box type is
the canonical tag for a known identifier, the raw identifier when
unknown, and stays `""` (its `__init__` value) when missing. -/
def set_type (primaryType : String) : String :=
  if primaryType = "" then ""
  else
    match lookupAssoc jahia_box_types primaryType with
    | some t => t
    | none => primaryType

/-- `Box.__init__` (`src/parser/box.py`, lines 85-94): `content` starts
`""` and `set_content` (here abstracted as `render`, covering the
type-specific transformer plus post-processing) only runs when the
resolved type is non-empty. -/
def box_content_after_init (primaryType : String) (render : String → String) : String :=
  let t := set_type primaryType
  if t ≠ "" then render t else ""

/-! ## News URL parameter extraction (`Box._extract_epfl_news_parameters`) -/

/-- Result record of `_extract_epfl_news_parameters`; `themes` and
`projects` are either the initial `""` (Python gives them type `str`)
or the full multi-valued parameter list. -/
structure NewsParams where
  channel : String
  lang : String
  template : String
  category : String
  stickers : String
  themes : String ⊕ List String
  projects : String ⊕ List String
deriving DecidableEq, Repr

/-- `Box._extract_epfl_news_parameters` (`src/parser/box.py`, lines
406-458) over the query dictionary produced by
`urllib.parse.parse_qs` (multi-valued, values lists never empty). -/
def _extract_epfl_news_parameters (params : List (String × List String)) :
    Except String NewsParams := do
  let channel_id ←
    match lookupAssoc params "channel" with
    | some l => pyIdxE l 0
    | none => pure ""
  let lang0 ←
    match lookupAssoc params "lang" with
    | some l => pyIdxE l 0
    | none => pure ""
  let lang1 := if lang0 = "ang" then "en" else lang0
  let lang := if lang1 = "fra" then "fr" else lang1
  let template ←
    match lookupAssoc params "template" with
    | some l => pyIdxE l 0
    | none => pure ""
  let stickers := if (lookupAssoc params "sticker").isSome then "no" else "yes"
  let category ←
    match lookupAssoc params "category" with
    | some l => pyIdxE l 0
    | none => pure ""
  let themes ←
    if (lookupAssoc params "themes").isSome then
      match lookupAssoc params "theme" with
      | some l => pure (Sum.inr l)
      | none => Except.error "KeyError: theme"
    else pure (Sum.inl "")
  let projects ←
    if (lookupAssoc params "project").isSome then
      match lookupAssoc params "project" with
      | some l => pure (Sum.inr l)
      | none => Except.error "KeyError: project"
    else pure (Sum.inl "")
  pure ⟨channel_id, lang, template, category, stickers, themes, projects⟩

/-! ## htaccess marker extraction (`manage_redirections.extract_htaccess_part`) -/

/-- The segment of `s` before the first occurrence of `sep`, or all of
`s` when `sep` does not occur. -/
def segUpTo (sep s : List Char) : List Char :=
  match firstIdx sep s with
  | none => s
  | some k => s.take k

/-- `extract_htaccess_part` (`src/manage_redirections.py`, lines 29-59).
The three logging-only branches that return `""` are collapsed into the
disjunction; in the final branch the `[1]` index is always in range
because the start marker occurs. -/
def extract_htaccess_part (content marker : String) : String :=
  let start_marker := "# BEGIN " ++ marker
  let end_marker := "# END " ++ marker
  if firstIdx start_marker.data content.data = none ∨
      firstIdx end_marker.data content.data = none then ""
  else
    let part1 := (pySplit start_marker.data content.data).getD 1 []
    let result := (pySplit end_marker.data part1).headD []
    pyJoin "\n" [start_marker, String.mk result, end_marker]

/-- The claim's reading of `extract_htaccess_part`: the text between
the first start marker and the first end marker following it (the
branch where no end marker follows the first start marker is not
described by the claim; `""` is returned there). -/
def specHtaccessExtract (content marker : String) : String :=
  let start_marker := "# BEGIN " ++ marker
  let end_marker := "# END " ++ marker
  if firstIdx start_marker.data content.data = none ∨
      firstIdx end_marker.data content.data = none then ""
  else
    match firstIdx start_marker.data content.data with
    | none => ""
    | some i =>
      let rest := content.data.drop (i + start_marker.data.length)
      match firstIdx end_marker.data rest with
      | none => ""
      | some j => pyJoin "\n" [start_marker, String.mk (rest.take j), end_marker]

/-! ## Sort keys and Python `sorted` / `dict` semantics -/

/-- A key under which a rendered box is stored: either a running
insertion index (Python `int`) or a sort-field value (Python `str`). -/
inductive BoxKey
  | idx (n : Nat)
  | str (s : String)
deriving DecidableEq, Repr

/-- Three-way comparison on naturals through decidable `<`. -/
def natCmp (a b : Nat) : Ordering :=
  if a < b then Ordering.lt else if b < a then Ordering.gt else Ordering.eq

/-- Lexicographic three-way comparison on strings (CPython compares
code points; Lean's `String` order is the same lexicographic order). -/
def strCmp (a b : String) : Ordering :=
  if a < b then Ordering.lt else if b < a then Ordering.gt else Ordering.eq

/-- Comparing two keys; CPython 3 raises `TypeError` on an `int`/`str`
comparison, which every sort of a mixed-key collection hits. -/
def keyCmpE : BoxKey → BoxKey → Except String Ordering
  | BoxKey.idx a, BoxKey.idx b => Except.ok (natCmp a b)
  | BoxKey.str a, BoxKey.str b => Except.ok (strCmp a b)
  | _, _ => Except.error "TypeError: '<' not supported between instances of 'str' and 'int'"

/-- Strict key order, failing on mixed key types. -/
def keyLtE (a b : BoxKey) : Except String Bool :=
  match keyCmpE a b with
  | Except.error msg => Except.error msg
  | Except.ok Ordering.lt => Except.ok true
  | Except.ok _ => Except.ok false

/-- Strict order on `dict.items()` pairs: CPython compares the tuples
`(key, value)` lexicographically. -/
def tupleLt (a b : BoxKey × String) : Except String Bool :=
  match keyCmpE a.1 b.1 with
  | Except.error msg => Except.error msg
  | Except.ok Ordering.lt => Except.ok true
  | Except.ok Ordering.gt => Except.ok false
  | Except.ok Ordering.eq => Except.ok (decide (a.2 < b.2))

/-- Python `d[k] = v`: overwrite in place, preserving the position of a
key inserted earlier, else append. -/
def dictInsert (l : List (BoxKey × String)) (k : BoxKey) (v : String) :
    List (BoxKey × String) :=
  match l with
  | [] => [(k, v)]
  | (k', v') :: rest => if k' = k then (k', v) :: rest else (k', v') :: dictInsert rest k v

/-- Stable insertion of `x` into `l`: `x` goes before the first element
`y` with `cmp x y = true` ("x strictly precedes y"), so equal elements
keep their arrival order (CPython's sort is stable). -/
def insE {α : Type} (cmp : α → α → Except String Bool) (x : α) :
    List α → Except String (List α)
  | [] => Except.ok [x]
  | y :: ys =>
    match cmp x y with
    | Except.error msg => Except.error msg
    | Except.ok true => Except.ok (x :: y :: ys)
    | Except.ok false =>
      match insE cmp x ys with
      | Except.error msg => Except.error msg
      | Except.ok l => Except.ok (y :: l)

/-- Stable insertion sort: elements are inserted left to right, so this
reproduces CPython `sorted` (including the `TypeError` on any
collection holding both `int` and `str` keys). -/
def sortEAux {α : Type} (cmp : α → α → Except String Bool) :
    List α → List α → Except String (List α)
  | acc, [] => Except.ok acc
  | acc, x :: xs =>
    match insE cmp x acc with
    | Except.error msg => Except.error msg
    | Except.ok acc2 => sortEAux cmp acc2 xs

/-- CPython `sorted(d.items(), reverse=(sort_way == 'desc'))`:
`reverse=True` yields the descending order with ties kept in original
order, i.e. a stable sort under the flipped comparison. -/
def pySortedItems (sortWay : String) (l : List (BoxKey × String)) :
    Except String (List (BoxKey × String)) :=
  if sortWay = "desc" then sortEAux (fun a b => tupleLt b a) [] l
  else sortEAux tupleLt [] l

/-! ## `BoxSortedGroup`

Modelled from the spec: `parser/box_sorted_group.py` is not under
`src/`; only its call sites are. Per spec §4.2 the group holds a
mapping from sort key to item where a repeated key overwrites
(`dictInsert`), and `get_sorted_boxes` orders items by key, ascending
or descending per the group's direction, ties broken by insertion
order (stable key-only comparison), numeric order on synthetic integer
indices and lexical order on strings (`keyLtE`). -/

structure BoxSortedGroup where
  sortWay : String
  boxes : List (BoxKey × String)

/-- Spec §4.2 `addItem`: store the rendered item under its key. -/
def BoxSortedGroup.add_box_to_sort (g : BoxSortedGroup) (box : String) (key : BoxKey) :
    BoxSortedGroup :=
  { g with boxes := dictInsert g.boxes key box }

/-- Key-only comparison directed by the group's sort way. -/
def groupCmp (way : String) (a b : BoxKey × String) : Except String Bool :=
  if way = "desc" then keyLtE b.1 a.1 else keyLtE a.1 b.1

/-- Spec §4.2 `getSortedItems`: items in key order. -/
def BoxSortedGroup.get_sorted_boxes (g : BoxSortedGroup) : Except String (List String) :=
  match sortEAux (groupCmp g.sortWay) [] g.boxes with
  | Except.error msg => Except.error msg
  | Except.ok sorted => Except.ok (sorted.map Prod.snd)

/-- Boxes keyed by consecutive insertion indices starting at `base`. -/
def idxKeyed : Nat → List String → List (BoxKey × String)
  | _, [] => []
  | base, c :: cs => (BoxKey.idx base, c) :: idxKeyed (base + 1) cs

/-! ## Scheduler wrapper (`Box._set_scheduler_box`) -/

/-- The `"T" in s` test plus `s.split("T")[0]` / `[1]` pattern of
`_set_scheduler_box`: date and time stay `""` when the tag holds no
`"T"`. -/
def splitDateTime (s : String) : String × String :=
  match pySplitS "T" s with
  | d :: t :: _ => (d, t)
  | _ => ("", "")

/-- `Box._set_scheduler_box` (`src/parser/box.py`, lines 209-257).
`Utils.get_tag_attribute` reads of `jahia:validFrom` / `jahia:validTo`
and `datetime.now().strftime("%Y-%m-%d")` are passed in as
`start_datetime`, `end_datetime` and `today`; the `shortcode_name`
side effect carries no content and is omitted. -/
def _set_scheduler_box (start_datetime end_datetime today content : String) : String :=
  if start_datetime = "" ∧ end_datetime = "" then content
  else
    let sd := splitDateTime start_datetime
    let ed := splitDateTime end_datetime
    if sd.1 ≠ "" ∧ ed.1 = "" ∧ sd.1 < today then content
    else
      let start_date := if sd.1 = "" ∧ ed.1 ≠ "" then today else sd.1
      "[epfl_scheduler start_date=\"" ++ start_date ++ "\" end_date=\"" ++ ed.1 ++
        "\" start_time=\"" ++ sd.2 ++ "\" end_time=\"" ++ ed.2 ++ "\"]" ++
        content ++ "[/epfl_scheduler]"

/-! ## Combo text boxes (`Box.set_box_text`, multibox branch) -/

/-- One `<comboList>` sub-entry: `content` is the concatenation of its
text, file list and link list renderings (lines 363-367), `sortValue`
the value of its `jcr:<sort_field>` attribute for the field named by
the group's sort descriptor. -/
structure ComboEntry where
  content : String
  sortValue : String
deriving DecidableEq, Repr

/-- The loop state of the multibox branch: the live `sort_infos` /
`sort_way` strings, the running `box_index` and the `box_list` dict. -/
structure ComboState where
  sortInfos : String
  sortWay : String
  boxIndex : Nat
  boxList : List (BoxKey × String)
deriving Repr

/-- One iteration of the `for combo in combo_list` loop
(`src/parser/box.py`, lines 361-388): empty content is skipped; with
sort infos an empty sort value switches the whole remaining run back to
sortless mode (resetting `sort_infos` and `sort_way`), otherwise the
entry is keyed by its sort value; without sort infos the entry is keyed
by the running index. -/
def comboStep (st : ComboState) (combo : ComboEntry) : ComboState :=
  if combo.content = "" then st
  else if st.sortInfos ≠ "" then
    if combo.sortValue = "" then
      { sortInfos := "", sortWay := "asc", boxIndex := st.boxIndex + 1,
        boxList := dictInsert st.boxList (BoxKey.idx st.boxIndex) combo.content }
    else
      { st with boxList := dictInsert st.boxList (BoxKey.str combo.sortValue) combo.content }
  else
    { st with boxIndex := st.boxIndex + 1,
              boxList := dictInsert st.boxList (BoxKey.idx st.boxIndex) combo.content }

/-- The full combo loop. -/
def comboLoop (st : ComboState) : List ComboEntry → ComboState
  | [] => st
  | c :: rest => comboLoop (comboStep st c) rest

/-- `content += filter_and_transform(box_content)` over the sorted
items (lines 395-398); `ft` abstracts `filter_and_transform` (the
Twitter rewrite, identity on ordinary content). -/
def contentConcat (ft : String → String) : List (BoxKey × String) → String
  | [] => ""
  | kv :: rest => ft kv.2 ++ contentConcat ft rest

/-- Concatenation of `ft` over a plain list of contents. -/
def concatMapS (ft : String → String) : List String → String
  | [] => ""
  | c :: cs => ft c ++ concatMapS ft cs

/-- The scheduler shortcode step (lines 400-402): wrap only when the
`jahia:ruleType` tag reads `START_AND_END_DATE`. -/
def schedWrap (ruleType validFrom validTo today content : String) : String :=
  if ruleType = "START_AND_END_DATE" then
    _set_scheduler_box validFrom validTo today content
  else content

/-- `Box.set_box_text`, multibox branch (`src/parser/box.py`, lines
339-404). `sort_infos` is the `jahia:sortHandler` attribute of
`comboListList`; `ruleType`, `validFrom`, `validTo` the scheduler tag
reads; `ft` abstracts `filter_and_transform`. The final
`sorted(box_list.items(), reverse=(sort_way == 'desc'))` is
`pySortedItems` and raises on mixed `int`/`str` keys exactly as
CPython does. -/
def set_box_text_multibox (ft : String → String)
    (ruleType validFrom validTo today sort_infos : String)
    (comboList : List ComboEntry) : Except String String :=
  let sortDec : Except String String :=
    if sort_infos ≠ "" then pyIdxE (pySplitS ";" sort_infos) 1
    else Except.ok "asc"
  match sortDec with
  | Except.error msg => Except.error msg
  | Except.ok sortWay0 =>
    let st := comboLoop ⟨sort_infos, sortWay0, 0, []⟩ comboList
    match pySortedItems st.sortWay st.boxList with
    | Except.error msg => Except.error msg
    | Except.ok sorted =>
      Except.ok (schedWrap ruleType validFrom validTo today (contentConcat ft sorted))

/-- Entries that survive the `if box_content == '': continue` filter,
in document order. -/
def comboContents (l : List ComboEntry) : List String :=
  (l.filter (fun e => e.content != "")).map ComboEntry.content

/-! ## Buttons boxes (`Box.set_box_buttons`) -/

/-- A `jahia:link` (internal reference) or `jahia:url` (external value)
tag inside a `<url>` child, each carrying a `jahia:title`. -/
inductive JahiaTag
  | jlink (titl reference : String)
  | jurl (titl value : String)
deriving DecidableEq, Repr

/-- An element child of a `<smallButtonList>` / `<bigButtonList>`: the
tags dispatched on in the `for child in button_list.childNodes` loop
(`src/parser/box.py`, lines 968-1012). For `<url>`, `smallValue` is its
`jahia:value` attribute (small buttons) and `tags` its element children
(big buttons). For `<type>`, `resourceKey` is the `default-value` of
the `jahia-resource` found in its `jahia:value` attribute (the
BeautifulSoup lookup of line 1010-1012, abstracted to its result). -/
inductive BtnChild
  | label (v : String)
  | url (smallValue : String) (tags : List JahiaTag)
  | image (v : String)
  | typeRef (resourceKey : String)
  | other
deriving DecidableEq, Repr

/-- One button item: `sortTags` holds the `jahia:title` attributes of
its descendants named by the decoded sort tag name (the
`getElementsByTagName(sort_tag_name)` result of line 955-958). -/
structure ButtonItem where
  sortTags : List String
  children : List BtnChild
deriving DecidableEq, Repr

/-- The mutable per-button variables of the rendering loop. -/
structure BtnState where
  url : String
  alt_text : String
  text : String
  image : String
  key : String
deriving DecidableEq, Repr

/-- `/`-join of the path split starting at segment 4, with the leading
`/` re-added (the `'/'.join(....split("/")[4:])` idiom of lines
1002-1006 and 1190-1194). -/
def stripFourSegments (v : String) : String :=
  "/" ++ pyJoin "/" ((pySplitS "/" v).drop 4)

/-- One `child` iteration of the button rendering loop
(`src/parser/box.py`, lines 968-1012): `label` sets the hover text;
`url` sets the link directly for small buttons and walks its
`jahia:link` / `jahia:url` children for big buttons, where `text` is
assigned the `jahia:title` of every element child, an unregistered
`jahia:link` reference is skipped (`continue`) and a resolved one
yields a `/page-<id>-<language>.html` URL; `image` and `type` set the
big-button image and the small-button icon key. -/
def btnChildStep (boxType : String) (pages : List (String × String)) (lang : String)
    (st : BtnState) : BtnChild → BtnState
  | BtnChild.label v => { st with alt_text := v }
  | BtnChild.url sv tags =>
    if boxType = "small" then { st with url := sv }
    else if boxType = "big" then
      tags.foldl (fun st tag =>
        match tag with
        | JahiaTag.jlink t ref =>
          let st := { st with text := t }
          match lookupAssoc pages ref with
          | none => st
          | some pid => { st with url := "/page-" ++ pid ++ "-" ++ lang ++ ".html" }
        | JahiaTag.jurl t v => { st with text := t, url := v }) st
    else st
  | BtnChild.image v => { st with image := stripFourSegments v }
  | BtnChild.typeRef k => { st with key := k }
  | BtnChild.other => st

/-- `Box._get_button_shortcode` (`src/parser/box.py`, lines 868-896);
`Utils.handle_custom_chars` (external escaping helper) is modelled as
the identity on already-escaped text. -/
def _get_button_shortcode (box_type url alt_text text big_button_image_url small_button_key : String) :
    String :=
  let img := if big_button_image_url ≠ "" then "image=\"" ++ big_button_image_url ++ "\"" else ""
  let key := if small_button_key ≠ "" then "key=\"" ++ small_button_key ++ "\"" else ""
  "[epfl_buttons type=\"" ++ box_type ++ "\" url=\"" ++ url ++ "\" " ++ img ++
    " alt_text=\"" ++ alt_text ++ "\" text=\"" ++ text ++ "\" " ++ key ++ "]"

/-- The `for button_list in elements` loop of `set_box_buttons`
(`src/parser/box.py`, lines 946-1026): when sorting is configured, an
item with no sort tag or an empty sort value raises before anything is
rendered for it; otherwise the item is keyed by its sort value, or by
the running group size when no sorting is configured. -/
def buttonsLoop (boxType : String) (pages : List (String × String)) (lang : String)
    (sortEnabled : Bool) (g : BoxSortedGroup) : List ButtonItem → Except String BoxSortedGroup
  | [] => Except.ok g
  | item :: rest =>
    let keyE : Except String BoxKey :=
      if sortEnabled then
        if item.sortTags.isEmpty || item.sortTags.headD "" == "" then
          Except.error "No sort tag found (or empty sort value found)"
        else Except.ok (BoxKey.str (item.sortTags.headD ""))
      else Except.ok (BoxKey.idx g.boxes.length)
    match keyE with
    | Except.error msg => Except.error msg
    | Except.ok key =>
      let st := item.children.foldl (btnChildStep boxType pages lang) ⟨"", "", "", "", ""⟩
      let st := if boxType = "small" && st.text == "" then { st with text := st.alt_text } else st
      buttonsLoop boxType pages lang sortEnabled
        (g.add_box_to_sort
          (_get_button_shortcode boxType st.url st.alt_text st.text st.image st.key) key) rest

/-- `Box.set_box_buttons` (`src/parser/box.py`, lines 898-1032).
`boxTypeRaw` is the `jcr:primaryType` attribute, `sort_params` the
`jahia:sortHandler` of the button container, `items` the
`<smallButtonList>` / `<bigButtonList>` elements. The `<h3>` title
computed first is overwritten by the container reassignment of line
1028, exactly as in the source. -/
def set_box_buttons (title boxTypeRaw : String) (pages : List (String × String))
    (lang sort_params : String) (items : List ButtonItem) : Except String String :=
  let content := if title ≠ "" then "<h3>" ++ title ++ "</h3>" else ""
  let boxType := if pyIn "small" boxTypeRaw then "small" else "big"
  let sortDec : Except String (String × Bool) :=
    if sort_params ≠ "" then
      match pyIdxE (pySplitS ";" sort_params) 1 with
      | Except.error msg => Except.error msg
      | Except.ok sw => Except.ok (sw, true)
    else Except.ok ("asc", false)
  match sortDec with
  | Except.error msg => Except.error msg
  | Except.ok (sortWay, sortEnabled) =>
    match buttonsLoop boxType pages lang sortEnabled ⟨sortWay, []⟩ items with
    | Except.error msg => Except.error msg
    | Except.ok g =>
      match g.get_sorted_boxes with
      | Except.error msg => Except.error msg
      | Except.ok sorted =>
        let content := "[epfl_buttons_container]" ++ joinS sorted ++ "[/epfl_buttons_container]"
        Except.ok content

/-- The box's `content` field after `set_content` ran `set_box_buttons`:
on an exception the field keeps its `initial` (`""` from `__init__`)
value, since `self.content = content` is only reached at line 1032. -/
def buttonsContentAfter (initial title boxTypeRaw : String) (pages : List (String × String))
    (lang sort_params : String) (items : List ButtonItem) : String :=
  match set_box_buttons title boxTypeRaw pages lang sort_params items with
  | Except.ok c => c
  | Except.error _ => initial

/-! ## Link lists (`Box._parse_links_to_list`) -/

/-- An element child of a `<links>` entry: its `<linkDesc>` text or its
`<link>` wrapper holding `jahia:link` / `jahia:url` tags. -/
inductive LinkChild
  | linkDesc (v : String)
  | link (tags : List JahiaTag)
  | other
deriving DecidableEq, Repr

/-- One `<links>` entry; `sortTags` as in `ButtonItem`. -/
structure LinkEntry where
  sortTags : List String
  children : List LinkChild
deriving DecidableEq, Repr

/-- The mutable per-entry variables `desc`, `title`, `url`. -/
structure LinkState where
  desc : String
  titl : String
  url : String
deriving DecidableEq, Repr

/-- One `link_node` iteration (`src/parser/box.py`, lines 1257-1286):
`title` is set from the `jahia:title` of both tag kinds; an
unregistered `jahia:link` reference is skipped with `continue`, leaving
`url` as it was; a registered one synthesizes
`/page-<id>-<language>.html`; `jahia:url` takes its value. -/
def linkChildStep (pages : List (String × String)) (lang : String)
    (st : LinkState) : LinkChild → LinkState
  | LinkChild.linkDesc v => { st with desc := v }
  | LinkChild.link tags =>
    tags.foldl (fun st tag =>
      match tag with
      | JahiaTag.jlink t ref =>
        let st := { st with titl := t }
        match lookupAssoc pages ref with
        | none => st
        | some pid => { st with url := "/page-" ++ pid ++ "-" ++ lang ++ ".html" }
      | JahiaTag.jurl t v => { st with titl := t, url := v }) st
  | LinkChild.other => st

/-- The `for e in elements` loop of `_parse_links_to_list`
(`src/parser/box.py`, lines 1234-1291), with the same
fatal-on-missing-sort-value policy as `buttonsLoop`. -/
def linksLoop (pages : List (String × String)) (lang : String)
    (sortEnabled : Bool) (g : BoxSortedGroup) : List LinkEntry → Except String BoxSortedGroup
  | [] => Except.ok g
  | e :: rest =>
    let keyE : Except String BoxKey :=
      if sortEnabled then
        if e.sortTags.isEmpty || e.sortTags.headD "" == "" then
          Except.error "No sort tag found (or empty sort value found)"
        else Except.ok (BoxKey.str (e.sortTags.headD ""))
      else Except.ok (BoxKey.idx g.boxes.length)
    match keyE with
    | Except.error msg => Except.error msg
    | Except.ok key =>
      let st := e.children.foldl (linkChildStep pages lang) ⟨"", "", ""⟩
      let link_html := "<li><a href=\"" ++ st.url ++ "\">" ++ st.titl ++ "</a>" ++ st.desc ++ "</li>"
      linksLoop pages lang sortEnabled (g.add_box_to_sort link_html key) rest

/-- `Box._parse_links_to_list` (`src/parser/box.py`, lines 1199-1298).
`sort_params` is the element's `jahia:sortHandler`; `entries` its
`<links>` element children. -/
def _parse_links_to_list (sort_params : String) (pages : List (String × String))
    (lang : String) (entries : List LinkEntry) : Except String String :=
  let sortDec : Except String (String × Bool) :=
    if sort_params ≠ "" then
      match pyIdxE (pySplitS ";" sort_params) 1 with
      | Except.error msg => Except.error msg
      | Except.ok sw => Except.ok (sw, true)
    else Except.ok ("asc", false)
  match sortDec with
  | Except.error msg => Except.error msg
  | Except.ok (sortWay, sortEnabled) =>
    match linksLoop pages lang sortEnabled ⟨sortWay, []⟩ entries with
    | Except.error msg => Except.error msg
    | Except.ok g =>
      match g.get_sorted_boxes with
      | Except.error msg => Except.error msg
      | Except.ok sorted =>
        let content := "<ul>" ++ joinS sorted ++ "</ul>"
        Except.ok (if content = "<ul></ul>" then "" else content)

/-! ## Snippets boxes (`Box.set_box_snippets`) -/

/-- One `<snippetList>` entry: `sortTags` holds the `jahia:value`
attributes of its descendants named by the decoded sort tag name
(lines 1084-1087 and 1121-1124); the remaining fields are its
`Utils.get_tag_attribute` reads (lines 1098-1103 and 1131-1153). -/
structure SnippetEntry where
  sortTags : List String
  title : String
  subtitle : String
  description : String
  image : String
  bigImage : String
  enableZoom : String
  extUrl : String
  extUrlTitle : String
  linkUuid : String
  linkTitle : String
deriving DecidableEq, Repr

/-- The slice `s[s.rfind(sub):]` (lines 1106-1109), meaningful when
`sub` occurs in `s`. -/
def sliceFromLast (sub s : String) : String :=
  match lastIdx sub.data s.data with
  | some i => String.mk (s.data.drop i)
  | none => s

/-- The per-snippet rendering of the `for snippet in snippets` loop
(`src/parser/box.py`, lines 1097-1164), minus the sort-key choice.
`hasUrlTag` is the `element.getElementsByTagName("url")` truthiness
test of line 1131; `Utils.handle_custom_chars` is the identity on
already-escaped text. -/
def renderSnippet (hasUrlTag : Bool) (pages : List (String × String)) (lang : String)
    (s : SnippetEntry) : String :=
  let image := if pyIn "/files" s.image then sliceFromLast "/files" s.image else s.image
  let big_image := if pyIn "/files" s.bigImage then sliceFromLast "/files" s.bigImage else s.bigImage
  let usd :=
    if hasUrlTag then
      let url := s.extUrl
      if url ≠ "" then
        let subtitle := if s.subtitle = "" then s.extUrlTitle else s.subtitle
        (url, subtitle, s.description)
      else
        match lookupAssoc pages s.linkUuid with
        | some pid =>
          let url := "/page-" ++ pid ++ "-" ++ lang ++ ".html"
          let description :=
            if s.linkTitle ≠ "" then
              s.description ++ "<a href=\"" ++ url ++ "\">" ++ s.linkTitle ++ "</a>"
            else s.description
          (url, s.subtitle, description)
        | none => ("", s.subtitle, s.description)
    else ("", s.subtitle, s.description)
  "[epfl_snippets url=\"" ++ usd.1 ++ "\" title=\"" ++ s.title ++ "\" subtitle=\"" ++ usd.2.1 ++
    "\" image=\"" ++ image ++ "\" big_image=\"" ++ big_image ++ "\" enable_zoom=\"" ++
    s.enableZoom ++ "\"]" ++ usd.2.2 ++ "[/epfl_snippets]"

/-- The rendering loop of `set_box_snippets` (lines 1097-1167): after
the pre-scan has fixed whether sorting is enabled, each snippet is
keyed by its first sort-tag value or by the running group size. -/
def snippetsLoop (sortEnabled : Bool) (hasUrlTag : Bool) (pages : List (String × String))
    (lang : String) (g : BoxSortedGroup) : List SnippetEntry → BoxSortedGroup
  | [] => g
  | s :: rest =>
    let key := if sortEnabled then BoxKey.str (s.sortTags.headD "")
               else BoxKey.idx g.boxes.length
    snippetsLoop sortEnabled hasUrlTag pages lang
      (g.add_box_to_sort (renderSnippet hasUrlTag pages lang s) key) rest

/-- `Box.set_box_snippets` (`src/parser/box.py`, lines 1038-1169).
`boxTitle` is the box title, `sort_params` the `jahia:sortHandler` of
`<snippetListList>`, `snippets` its `<snippetList>` children. The
pre-scan of lines 1080-1095 disables sorting for the whole group as
soon as any entry has no sort tag or an empty sort value (the source
breaks at the first such entry; the net effect on `sort_tag_name` is
the `any` below). -/
def set_box_snippets (boxTitle : String) (hasUrlTag : Bool) (pages : List (String × String))
    (lang sort_params : String) (snippets : List SnippetEntry) : Except String String :=
  let content0 := if boxTitle ≠ "" then "<h3>" ++ boxTitle ++ "</h3>" else ""
  let sortDec : Except String (String × Bool) :=
    if sort_params ≠ "" then
      match pyIdxE (pySplitS ";" sort_params) 1 with
      | Except.error msg => Except.error msg
      | Except.ok sw => Except.ok (sw, true)
    else Except.ok ("asc", false)
  match sortDec with
  | Except.error msg => Except.error msg
  | Except.ok (sortWay, sortRequested) =>
    let sortEnabled := sortRequested &&
      !(snippets.any (fun s => s.sortTags.isEmpty || s.sortTags.headD "" == ""))
    match (snippetsLoop sortEnabled hasUrlTag pages lang ⟨sortWay, []⟩ snippets).get_sorted_boxes with
    | Except.error msg => Except.error msg
    | Except.ok sorted => Except.ok (content0 ++ joinS sorted)

/-- Reversal exactly when the descriptor's direction reads `desc`. -/
def maybeRev {α : Type} (way : String) (l : List α) : List α :=
  if way = "desc" then l.reverse else l

/-! ## Post-processing pipeline (`fix_video_iframes`, `add_id_to_h3`,
`fix_img_align_left`)

Modelled from the spec: the three fixups operate on the BeautifulSoup
parse of the content fragment (`html5lib`, `soup.body` serialization);
the parsed fragment is abstracted here as the list of nodes the fixups
inspect — plain markup/text, `<iframe>` with its `src`, `<img>` with
its `align`/`class` attributes, `<h3>` with its `id` and text — and
each fixup is the node rewrite the source loop performs. -/

inductive HNode
  | htext (s : String)
  | iframe (src : Option String)
  | img (align cls : Option String)
  | h3 (idAttr : Option String) (txt : String)
deriving DecidableEq, Repr

/-- The `src and (...)` allow test of `fix_video_iframes`
(`src/parser/box.py`, line 1387): a plain substring test on the whole
`src` URL. -/
def videoSrcMatch (src : String) : Bool :=
  pyIn "youtube.com" src || pyIn "youtu.be" src || pyIn "player.vimeo.com" src

/-- Node rewrite of `Box.fix_video_iframes` (`src/parser/box.py`, lines
1369-1393): a matching iframe is replaced by the shortcode text
carrying its original `src`. -/
def fixVideoNode : HNode → HNode
  | HNode.iframe (some src) =>
    if (src != "") && videoSrcMatch src then
      HNode.htext ("[epfl_video url=\"" ++ src ++ "\"]")
    else HNode.iframe (some src)
  | n => n

def fix_video_iframes (content : List HNode) : List HNode :=
  content.map fixVideoNode

/-- Modelled from the spec: `django.utils.text.slugify` (external
library) per §4.4 — a URL-safe slug, lowercase, non-alphanumeric runs
collapsed to single hyphens, trimmed at both ends. -/
def collapseDashes : List Char → List Char
  | [] => []
  | [c] => [c]
  | c :: d :: rest =>
    if c = '-' ∧ d = '-' then collapseDashes (d :: rest)
    else c :: collapseDashes (d :: rest)

def slugify (s : String) : String :=
  let mapped := s.data.map (fun c => if c.isAlphanum then c.toLower else '-')
  let collapsed := collapseDashes mapped
  let trimmed := ((collapsed.dropWhile (fun c => c == '-')).reverse.dropWhile
    (fun c => c == '-')).reverse
  String.mk trimmed

/-- Node rewrite of `Box.add_id_to_h3` (`src/parser/box.py`, lines
1395-1412): an `<h3>` with non-empty text and no `id` gets the slug of
its text as `id`. -/
def fixH3Node : HNode → HNode
  | HNode.h3 none txt =>
    if txt ≠ "" then HNode.h3 (some (slugify txt)) txt else HNode.h3 none txt
  | n => n

def add_id_to_h3 (content : List HNode) : List HNode :=
  content.map fixH3Node

/-- Node rewrite of `Box.fix_img_align_left` (`src/parser/box.py`,
lines 1348-1367): `align="left"` is deleted and `class` set to
`left`; any other alignment is untouched. -/
def fixImgNode : HNode → HNode
  | HNode.img (some a) cls =>
    if a = "left" then HNode.img none (some "left") else HNode.img (some a) cls
  | n => n

def fix_img_align_left (content : List HNode) : List HNode :=
  content.map fixImgNode

/-- The fixed pipeline order of `Box.set_content` (`src/parser/box.py`,
lines 203-207). -/
def postProcess (content : List HNode) : List HNode :=
  fix_img_align_left (add_id_to_h3 (fix_video_iframes content))

/-- Modelled from the spec: the host of a URL — the text between
`://` and the next `/`, `?` or `#` — used only to state the allow-list
claim about `fix_video_iframes`. -/
def hostOf (url : String) : String :=
  match firstIdx "://".data url.data with
  | none => ""
  | some i =>
    String.mk ((url.data.drop (i + 3)).takeWhile
      (fun ch => !(ch == '/' || ch == '?' || ch == '#')))

/-- The video-host allow-list named by the claim: YouTube long/short
domains and the Vimeo player domain. -/
def allowedVideoHosts : List String :=
  ["www.youtube.com", "youtube.com", "youtu.be", "player.vimeo.com"]

/-- The substrings actually tested by `fix_video_iframes`. -/
def videoSrcSubstrings : List String :=
  ["youtube.com", "youtu.be", "player.vimeo.com"]

/-- CPython `s.count(sub)` for a non-empty needle: the number of
non-overlapping occurrences. -/
def countSub (sub s : String) : Nat :=
  (pySplit sub.data s.data).length - 1

/-! ## Helper lemmas on the sorting primitives -/

theorem insE_all_false {α : Type} (cmp : α → α → Except String Bool) (x : α)
    (l : List α) (h : ∀ y ∈ l, cmp x y = Except.ok false) :
    insE cmp x l = Except.ok (l ++ [x]) := by
  induction l with
  | nil => rfl
  | cons y ys ih =>
    have hy : cmp x y = Except.ok false := h y (List.mem_cons_self y ys)
    simp only [insE, hy, ih (fun z hz => h z (List.mem_cons_of_mem y hz))]
    rfl

theorem insE_front {α : Type} (cmp : α → α → Except String Bool) (x : α)
    (l : List α) (h : ∀ y ∈ l, cmp x y = Except.ok true) :
    insE cmp x l = Except.ok (x :: l) := by
  cases l with
  | nil => rfl
  | cons y ys =>
    have hy : cmp x y = Except.ok true := h y (List.mem_cons_self y ys)
    simp [insE, hy]

theorem sortEAux_idx_asc {cmp : (BoxKey × String) → (BoxKey × String) → Except String Bool}
    (hcmp : ∀ (m j : Nat) (c v : String), j < m →
      cmp (BoxKey.idx m, c) (BoxKey.idx j, v) = Except.ok false) :
    ∀ (l : List String) (base : Nat) (acc : List (BoxKey × String)),
      (∀ kv ∈ acc, ∃ j, kv.1 = BoxKey.idx j ∧ j < base) →
      sortEAux cmp acc (idxKeyed base l) = Except.ok (acc ++ idxKeyed base l) := by
  intro l
  induction l with
  | nil =>
    intro base acc hacc
    simp [idxKeyed, sortEAux]
  | cons c cs ih =>
    intro base acc hacc
    have hins : insE cmp (BoxKey.idx base, c) acc = Except.ok (acc ++ [(BoxKey.idx base, c)]) := by
      apply insE_all_false
      intro y hy
      obtain ⟨k, v⟩ := y
      obtain ⟨j, hj1, hj2⟩ := hacc (k, v) hy
      simp only at hj1
      subst hj1
      exact hcmp base j c v hj2
    simp only [idxKeyed, sortEAux, hins]
    rw [ih (base + 1) (acc ++ [(BoxKey.idx base, c)]) ?_]
    · simp
    · intro kv hkv
      rcases List.mem_append.1 hkv with h | h
      · obtain ⟨j, h1, h2⟩ := hacc kv h
        exact ⟨j, h1, Nat.lt_succ_of_lt h2⟩
      · simp only [List.mem_singleton] at h
        subst h
        exact ⟨base, rfl, Nat.lt_succ_self base⟩

theorem sortEAux_idx_desc {cmp : (BoxKey × String) → (BoxKey × String) → Except String Bool}
    (hcmp : ∀ (m j : Nat) (c v : String), j < m →
      cmp (BoxKey.idx m, c) (BoxKey.idx j, v) = Except.ok true) :
    ∀ (l : List String) (base : Nat) (acc : List (BoxKey × String)),
      (∀ kv ∈ acc, ∃ j, kv.1 = BoxKey.idx j ∧ j < base) →
      sortEAux cmp acc (idxKeyed base l) = Except.ok ((idxKeyed base l).reverse ++ acc) := by
  intro l
  induction l with
  | nil =>
    intro base acc hacc
    simp [idxKeyed, sortEAux]
  | cons c cs ih =>
    intro base acc hacc
    have hins : insE cmp (BoxKey.idx base, c) acc = Except.ok ((BoxKey.idx base, c) :: acc) := by
      apply insE_front
      intro y hy
      obtain ⟨k, v⟩ := y
      obtain ⟨j, hj1, hj2⟩ := hacc (k, v) hy
      simp only at hj1
      subst hj1
      exact hcmp base j c v hj2
    simp only [idxKeyed, sortEAux, hins]
    rw [ih (base + 1) ((BoxKey.idx base, c) :: acc) ?_]
    · simp
    · intro kv hkv
      rcases List.mem_cons.1 hkv with h | h
      · subst h
        exact ⟨base, rfl, Nat.lt_succ_self base⟩
      · obtain ⟨j, h1, h2⟩ := hacc kv h
        exact ⟨j, h1, Nat.lt_succ_of_lt h2⟩

theorem natCmp_gt_of_lt {m j : Nat} (h : j < m) : natCmp m j = Ordering.gt := by
  unfold natCmp
  rw [if_neg (by omega), if_pos h]

theorem natCmp_lt_of_lt {m j : Nat} (h : j < m) : natCmp j m = Ordering.lt := by
  unfold natCmp
  rw [if_pos h]

theorem tupleLt_idx_false (m j : Nat) (c v : String) (h : j < m) :
    tupleLt (BoxKey.idx m, c) (BoxKey.idx j, v) = Except.ok false := by
  simp [tupleLt, keyCmpE, natCmp_gt_of_lt h]

theorem groupCmp_asc_idx_false (w : String) (hw : w ≠ "desc") (m j : Nat) (c v : String)
    (h : j < m) :
    groupCmp w (BoxKey.idx m, c) (BoxKey.idx j, v) = Except.ok false := by
  simp [groupCmp, hw, keyLtE, keyCmpE, natCmp_gt_of_lt h]

theorem groupCmp_desc_idx_true (m j : Nat) (c v : String) (h : j < m) :
    groupCmp "desc" (BoxKey.idx m, c) (BoxKey.idx j, v) = Except.ok true := by
  simp [groupCmp, keyLtE, keyCmpE, natCmp_lt_of_lt h]

theorem dictInsert_fresh (l : List (BoxKey × String)) (k : BoxKey) (v : String)
    (h : ∀ kv ∈ l, kv.1 ≠ k) : dictInsert l k v = l ++ [(k, v)] := by
  induction l with
  | nil => rfl
  | cons kv rest ih =>
    obtain ⟨k', v'⟩ := kv
    have hk : k' ≠ k := h (k', v') (List.mem_cons_self _ _)
    simp [dictInsert, hk, ih (fun z hz => h z (List.mem_cons_of_mem _ hz))]

theorem idxKeyed_length (base : Nat) (l : List String) :
    (idxKeyed base l).length = l.length := by
  induction l generalizing base with
  | nil => rfl
  | cons c cs ih => simp [idxKeyed, ih]

theorem idxKeyed_mem (base : Nat) (l : List String) :
    ∀ kv ∈ idxKeyed base l, ∃ j, kv.1 = BoxKey.idx j ∧ base ≤ j ∧ j < base + l.length := by
  induction l generalizing base with
  | nil => intro kv hkv; simp [idxKeyed] at hkv
  | cons c cs ih =>
    intro kv hkv
    rcases List.mem_cons.1 hkv with h | h
    · subst h
      exact ⟨base, rfl, Nat.le_refl base, by simp⟩
    · obtain ⟨j, h1, h2, h3⟩ := ih (base + 1) kv h
      exact ⟨j, h1, by omega, by simp at h3 ⊢; omega⟩

theorem idxKeyed_append (base : Nat) (l : List String) (c : String) :
    idxKeyed base (l ++ [c]) = idxKeyed base l ++ [(BoxKey.idx (base + l.length), c)] := by
  induction l generalizing base with
  | nil => simp [idxKeyed]
  | cons d ds ih =>
    simp only [List.cons_append, idxKeyed, List.append_eq]
    rw [ih (base + 1)]
    simp only [List.length_cons]
    have : base + 1 + ds.length = base + (ds.length + 1) := by omega
    rw [this]

theorem idxKeyed_map_snd (base : Nat) (l : List String) :
    (idxKeyed base l).map Prod.snd = l := by
  induction l generalizing base with
  | nil => rfl
  | cons c cs ih => simp [idxKeyed, ih]

theorem dictInsert_idxKeyed (cs : List String) (c : String) :
    dictInsert (idxKeyed 0 cs) (BoxKey.idx cs.length) c = idxKeyed 0 (cs ++ [c]) := by
  rw [idxKeyed_append]
  simp only [Nat.zero_add]
  apply dictInsert_fresh
  intro kv hkv
  obtain ⟨j, h1, _, h3⟩ := idxKeyed_mem 0 cs kv hkv
  rw [h1]
  simp only [Nat.zero_add] at h3
  intro heq
  cases heq
  omega

theorem get_sorted_boxes_idxKeyed (way : String) (l : List String) :
    BoxSortedGroup.get_sorted_boxes ⟨way, idxKeyed 0 l⟩ = Except.ok (maybeRev way l) := by
  unfold BoxSortedGroup.get_sorted_boxes maybeRev
  by_cases hw : way = "desc"
  · subst hw
    rw [sortEAux_idx_desc (fun m j c v h => groupCmp_desc_idx_true m j c v h) l 0 []
      (by intro kv hkv; simp at hkv)]
    simp [List.map_reverse, idxKeyed_map_snd]
  · rw [sortEAux_idx_asc (fun m j c v h => groupCmp_asc_idx_false way hw m j c v h) l 0 []
      (by intro kv hkv; simp at hkv)]
    simp [idxKeyed_map_snd, hw]

/-! ## Helper lemmas on the combo loop -/

theorem comboLoop_append (st : ComboState) (l1 l2 : List ComboEntry) :
    comboLoop st (l1 ++ l2) = comboLoop (comboLoop st l1) l2 := by
  induction l1 generalizing st with
  | nil => rfl
  | cons c cs ih => simp [comboLoop, ih]

theorem comboLoop_empty_contents (st : ComboState) (l : List ComboEntry)
    (h : ∀ e ∈ l, e.content = "") : comboLoop st l = st := by
  induction l generalizing st with
  | nil => rfl
  | cons e es ih =>
    have he : e.content = "" := h e (List.mem_cons_self _ _)
    simp only [comboLoop, comboStep, he, if_pos rfl]
    exact ih st (fun z hz => h z (List.mem_cons_of_mem _ hz))

theorem comboContents_cons_of_empty (e : ComboEntry) (l : List ComboEntry)
    (h : e.content = "") : comboContents (e :: l) = comboContents l := by
  simp [comboContents, List.filter_cons, h]

theorem comboContents_cons_of_ne (e : ComboEntry) (l : List ComboEntry)
    (h : e.content ≠ "") : comboContents (e :: l) = e.content :: comboContents l := by
  simp [comboContents, List.filter_cons, h]

theorem comboContents_append (l1 l2 : List ComboEntry) :
    comboContents (l1 ++ l2) = comboContents l1 ++ comboContents l2 := by
  simp [comboContents, List.filter_append]

theorem comboContents_all_empty (l : List ComboEntry)
    (h : ∀ e ∈ l, e.content = "") : comboContents l = [] := by
  induction l with
  | nil => rfl
  | cons e es ih =>
    rw [comboContents_cons_of_empty e es (h e (List.mem_cons_self _ _))]
    exact ih (fun z hz => h z (List.mem_cons_of_mem _ hz))

theorem comboLoop_sortless (sw : String) :
    ∀ (l : List ComboEntry) (cs : List String),
      comboLoop ⟨"", sw, cs.length, idxKeyed 0 cs⟩ l =
        ⟨"", sw, (cs ++ comboContents l).length, idxKeyed 0 (cs ++ comboContents l)⟩ := by
  intro l
  induction l with
  | nil => intro cs; simp [comboLoop, comboContents]
  | cons e es ih =>
    intro cs
    by_cases he : e.content = ""
    · rw [comboContents_cons_of_empty e es he]
      simp only [comboLoop, comboStep, he, if_pos rfl]
      exact ih cs
    · rw [comboContents_cons_of_ne e es he]
      simp only [comboLoop, comboStep, if_neg he]
      rw [if_neg (by simp)]
      have hins := dictInsert_idxKeyed cs e.content
      simp only [hins]
      have hih := ih (cs ++ [e.content])
      simp only [List.length_append, List.length_singleton, List.length_nil, List.length_cons,
        List.append_assoc, List.singleton_append, Nat.zero_add] at hih ⊢
      exact hih

theorem contentConcat_idxKeyed (ft : String → String) (base : Nat) (l : List String) :
    contentConcat ft (idxKeyed base l) = concatMapS ft l := by
  induction l generalizing base with
  | nil => rfl
  | cons c cs ih => simp [idxKeyed, contentConcat, concatMapS, ih]

/-! ## C1 — combo text boxes, sort-key fallback -/

/-- C1 counterexample: a combo set whose first rendered entry has a
sort value (`"b"`) and whose second lacks it does not fall back to
index keys for the whole set — the first entry keeps its string key,
the second gets integer key `0`, and the final sort raises CPython's
`TypeError`, so the transformer does not complete without raising. -/
theorem set_box_text_combo_counterexample :
    set_box_text_multibox id "" "" "" "" "title;asc;true;true"
      [⟨"A", "b"⟩, ⟨"B", ""⟩] =
      Except.error "TypeError: '<' not supported between instances of 'str' and 'int'" := by
  rfl

/-- C1 (amended): sorting is abandoned only from the first empty-keyed
entry onward. When the first sub-entry with non-empty content already
lacks the sort value — so no entry was stored under a string key
before the fallback — every sub-entry of the set is keyed by its
running insertion index, ascending, and the transformer completes
without raising, producing the filtered contents in document order
(plus the scheduler wrap). -/
theorem set_box_text_combo_index_fallback (ft : String → String)
    (rt vf vt today si sw0 : String) (pre post : List ComboEntry) (e0 : ComboEntry)
    (hsi : si ≠ "") (hq : (pySplitS ";" si).get? 1 = some sw0)
    (hpre : ∀ e ∈ pre, e.content = "") (h0 : e0.content ≠ "") (h0v : e0.sortValue = "") :
    set_box_text_multibox ft rt vf vt today si (pre ++ e0 :: post) =
      Except.ok (schedWrap rt vf vt today
        (concatMapS ft (comboContents (pre ++ e0 :: post)))) := by
  unfold set_box_text_multibox
  rw [if_pos hsi]
  simp only [pyIdxE, hq]
  rw [comboLoop_append, comboLoop_empty_contents _ pre hpre]
  simp only [comboLoop]
  have hstep : comboStep ⟨si, sw0, 0, []⟩ e0 = ⟨"", "asc", 1, [(BoxKey.idx 0, e0.content)]⟩ := by
    simp [comboStep, h0, hsi, h0v, dictInsert]
  rw [hstep]
  have hloop := comboLoop_sortless "asc" post [e0.content]
  simp only [List.length_singleton, List.singleton_append] at hloop
  have hidx : idxKeyed 0 [e0.content] = [(BoxKey.idx 0, e0.content)] := rfl
  rw [hidx] at hloop
  rw [hloop]
  simp only [pySortedItems]
  rw [if_neg (by decide)]
  rw [sortEAux_idx_asc (fun m j c v h => tupleLt_idx_false m j c v h)
    (e0.content :: comboContents post) 0 [] (by intro kv hkv; simp at hkv)]
  simp only [List.nil_append]
  rw [contentConcat_idxKeyed]
  rw [comboContents_append, comboContents_all_empty pre hpre,
    comboContents_cons_of_ne e0 post h0]
  simp

/-- Closed instance of `set_box_text_combo_index_fallback`: both
entries fall back to index keys and render in document order. -/
theorem set_box_text_combo_index_fallback_witness :
    set_box_text_multibox id "" "" "" "" "title;asc;true;true"
      [⟨"A", ""⟩, ⟨"B", "x"⟩] = Except.ok "AB" := by
  have h := set_box_text_combo_index_fallback id "" "" "" "" "title;asc;true;true" "asc"
    [] [⟨"B", "x"⟩] ⟨"A", ""⟩ (by decide) (by rfl)
    (by intro e he; simp at he) (by decide) rfl
  exact h.trans (by rfl)

/-! ## C2 — link lists with an unresolved internal reference -/

theorem ul_wrap_ne (s : String) (hs : s.length ≠ 0) :
    ("<ul>" ++ s ++ "</ul>") ≠ "<ul></ul>" := by
  intro h
  have hlen := congrArg String.length h
  have h1 : ("<ul>" : String).length = 4 := rfl
  have h2 : ("</ul>" : String).length = 5 := rfl
  have h3 : ("<ul></ul>" : String).length = 9 := rfl
  simp only [String.length_append, h1, h2, h3] at hlen
  omega

/-- C2 counterexample: a link list with one entry referencing an
unregistered uuid and one entry with a valid external URL returns a
list with two `<li>` items, not exactly one — the unresolved entry is
not skipped entirely, it is rendered with an empty `href`. -/
theorem parse_links_unresolved_counterexample :
    _parse_links_to_list "" [] "en"
      [⟨[], [LinkChild.linkDesc "", LinkChild.link [JahiaTag.jlink "gone" "deadbeef"]]⟩,
       ⟨[], [LinkChild.linkDesc "", LinkChild.link [JahiaTag.jurl "ext" "https://x.ch"]]⟩] =
      Except.ok "<ul><li><a href=\"\">gone</a></li><li><a href=\"https://x.ch\">ext</a></li></ul>"
    ∧ countSub "<li>"
        "<ul><li><a href=\"\">gone</a></li><li><a href=\"https://x.ch\">ext</a></li></ul>" = 2 :=
  ⟨by rfl, by decide⟩

/-- C2 (amended): for a link list with one entry whose `jahia:link`
references a uuid absent from the page registry and one entry with a
valid external `jahia:url`, no exception is raised and the result
contains two `<li>` items: the unresolved entry is kept with an empty
`href` (only its URL resolution is skipped), followed by the external
one. -/
theorem parse_links_unresolved_entry_kept (pages : List (String × String))
    (lang uuid t1 d1 t2 d2 urlv : String)
    (h : lookupAssoc pages uuid = none) :
    _parse_links_to_list "" pages lang
      [⟨[], [LinkChild.linkDesc d1, LinkChild.link [JahiaTag.jlink t1 uuid]]⟩,
       ⟨[], [LinkChild.linkDesc d2, LinkChild.link [JahiaTag.jurl t2 urlv]]⟩] =
      Except.ok ("<ul><li><a href=\"\">" ++ t1 ++ "</a>" ++ d1 ++
        "</li><li><a href=\"" ++ urlv ++ "\">" ++ t2 ++ "</a>" ++ d2 ++ "</li></ul>") := by
  unfold _parse_links_to_list
  simp only [ne_eq, not_true_eq_false, if_false, reduceIte]
  simp only [linksLoop, List.foldl, linkChildStep, h, BoxSortedGroup.add_box_to_sort, dictInsert,
    Bool.false_eq_true, if_false, List.length_nil, List.length_cons, reduceIte,
    BoxKey.idx.injEq, Nat.zero_ne_one, BoxSortedGroup.get_sorted_boxes, sortEAux, insE,
    groupCmp, keyLtE, keyCmpE, natCmp, joinS]
  rw [if_neg (show ¬ ("asc" : String) = "desc" by decide)]
  norm_num
  simp only [joinS, String.append_empty]
  have hne : ("<li><a href=\"" ++ "\">" ++ t1 ++ "</a>" ++ d1 ++ "</li>" ++
      ("<li><a href=\"" ++ urlv ++ "\">" ++ t2 ++ "</a>" ++ d2 ++ "</li>")).length ≠ 0 := by
    have hA : ("<li><a href=\"" : String).length = 13 := by decide
    simp [String.length_append, hA]
  rw [if_neg (ul_wrap_ne _ hne)]
  simp only [String.ext_iff, String.data_append, List.append_assoc, List.cons_append,
    List.nil_append]

/-- Closed instance of `parse_links_unresolved_entry_kept`. -/
theorem parse_links_unresolved_entry_kept_witness :
    _parse_links_to_list "" [] "en"
      [⟨[], [LinkChild.linkDesc "d1", LinkChild.link [JahiaTag.jlink "t1" "u1"]]⟩,
       ⟨[], [LinkChild.linkDesc "d2", LinkChild.link [JahiaTag.jurl "t2" "http://x"]]⟩] =
      Except.ok "<ul><li><a href=\"\">t1</a>d1</li><li><a href=\"http://x\">t2</a>d2</li></ul>" := by
  have h := parse_links_unresolved_entry_kept [] "en" "u1" "t1" "d1" "t2" "d2" "http://x" (by rfl)
  exact h.trans (by rfl)

/-! ## C3 — Buttons boxes, fatal missing sort value -/

theorem buttonsLoop_bad_error (boxType : String) (pages : List (String × String)) (lang : String)
    (g : BoxSortedGroup) (items : List ButtonItem)
    (hbad : ∃ it ∈ items, it.sortTags = [] ∨ it.sortTags.headD "" = "") :
    ∃ msg, buttonsLoop boxType pages lang true g items = Except.error msg := by
  induction items generalizing g with
  | nil =>
    obtain ⟨it, hit, _⟩ := hbad
    simp at hit
  | cons item rest ih =>
    by_cases hc : item.sortTags = [] ∨ item.sortTags.headD "" = ""
    · refine ⟨"No sort tag found (or empty sort value found)", ?_⟩
      have hb : (item.sortTags.isEmpty || item.sortTags.headD "" == "") = true := by
        rcases hc with h1 | h1
        · simp [h1]
        · simp only [List.headD_eq_head?_getD] at h1
          simp [h1]
      simp only [buttonsLoop, hb, reduceIte]
    · have hb : (item.sortTags.isEmpty || item.sortTags.headD "" == "") = false := by
        rcases (not_or.1 hc) with ⟨h1, h2⟩
        simp only [List.headD_eq_head?_getD] at h2
        simp [List.isEmpty_iff, h1, h2]
      obtain ⟨it, hit, hbad1⟩ := hbad
      rcases List.mem_cons.1 hit with heq | hmem
      · exact absurd (heq ▸ hbad1) hc
      · simp only [buttonsLoop, hb, Bool.false_eq_true, if_false, reduceIte]
        exact ih _ ⟨it, hmem, hbad1⟩

/-- C3: for a Buttons box whose button container carries a non-empty
(well-formed) sort descriptor, if any button item lacks the named sort
tag or has an empty sort value, `set_box_buttons` raises before
producing output for that box, and the box's `content` field still
holds its initial empty string after the failed call. -/
theorem set_box_buttons_missing_sort_raises (title btr : String)
    (pages : List (String × String)) (lang sp sw : String) (items : List ButtonItem)
    (hsp : sp ≠ "") (hq : (pySplitS ";" sp).get? 1 = some sw)
    (hbad : ∃ it ∈ items, it.sortTags = [] ∨ it.sortTags.headD "" = "") :
    (∃ msg, set_box_buttons title btr pages lang sp items = Except.error msg) ∧
    buttonsContentAfter "" title btr pages lang sp items = "" := by
  obtain ⟨msg, hmsg⟩ := buttonsLoop_bad_error (if pyIn "small" btr then "small" else "big")
    pages lang ⟨sw, []⟩ items hbad
  have hmain : set_box_buttons title btr pages lang sp items = Except.error msg := by
    unfold set_box_buttons
    rw [if_pos hsp]
    simp only [pyIdxE, hq, hmsg]
  exact ⟨⟨msg, hmain⟩, by unfold buttonsContentAfter; rw [hmain]⟩

/-- Closed instance of `set_box_buttons_missing_sort_raises`: a big
Buttons box with the documented sort descriptor and one button without
the sort tag raises, and its content stays empty. -/
theorem set_box_buttons_missing_sort_raises_witness :
    (∃ msg, set_box_buttons "" "epfl:bigButtonsBox" [] "en"
      "epfl_simple_main_bigButtonList_url;desc;false;false" [⟨[], []⟩] = Except.error msg) ∧
    buttonsContentAfter "" "" "epfl:bigButtonsBox" [] "en"
      "epfl_simple_main_bigButtonList_url;desc;false;false" [⟨[], []⟩] = "" := by
  exact set_box_buttons_missing_sort_raises "" "epfl:bigButtonsBox" [] "en" _ "desc" [⟨[], []⟩]
    (by decide) (by rfl) ⟨⟨[], []⟩, by simp, Or.inl rfl⟩

/-! ## C4 — post-processing pipeline idempotence -/

theorem postNode_idem (n : HNode) :
    fixImgNode (fixH3Node (fixVideoNode (fixImgNode (fixH3Node (fixVideoNode n))))) =
      fixImgNode (fixH3Node (fixVideoNode n)) := by
  cases n with
  | htext s => rfl
  | iframe src =>
    cases src with
    | none => rfl
    | some s =>
      by_cases h : ((s != "") && videoSrcMatch s) = true
      · simp [fixVideoNode, h, fixH3Node, fixImgNode]
      · simp [fixVideoNode, h, fixH3Node, fixImgNode]
  | img align cls =>
    cases align with
    | none => rfl
    | some a =>
      by_cases h : a = "left"
      · subst h
        simp [fixVideoNode, fixH3Node, fixImgNode]
      · simp [fixVideoNode, fixH3Node, fixImgNode, h]
  | h3 idAttr txt =>
    cases idAttr with
    | some i => rfl
    | none =>
      by_cases h : txt = ""
      · subst h
        simp [fixVideoNode, fixH3Node, fixImgNode]
      · simp [fixVideoNode, fixH3Node, fixImgNode, h]

/-- C4: the three-step post-processing pipeline (`fix_video_iframes`,
`add_id_to_h3`, `fix_img_align_left` in the `set_content` order) is
idempotent on every content fragment; in particular the heading-id
fixup run twice on `<h3>Hello World</h3>` equals one run, which
injects `id="hello-world"`. -/
theorem post_process_pipeline_idempotent :
    (∀ content : List HNode, postProcess (postProcess content) = postProcess content) ∧
    add_id_to_h3 (add_id_to_h3 [HNode.h3 none "Hello World"]) =
      add_id_to_h3 [HNode.h3 none "Hello World"] ∧
    add_id_to_h3 [HNode.h3 none "Hello World"] =
      [HNode.h3 (some "hello-world") "Hello World"] := by
  refine ⟨?_, by decide, by decide⟩
  intro content
  simp only [postProcess, fix_video_iframes, add_id_to_h3, fix_img_align_left, List.map_map]
  apply List.map_congr_left
  intro n _
  simpa using postNode_idem n

/-! ## C5 — scheduler wrapper behavior -/

/-- C5: for a combo-text box with rule `START_AND_END_DATE`,
`_set_scheduler_box` returns the content unwrapped when both
`validFrom` and `validTo` are empty; returns it unwrapped when only a
start date strictly before the current processing date is present
(datetime of shape `<date>T<time>`, non-empty date) and no end date;
and with only an end date present returns an `epfl_scheduler` wrapper
whose `start_date` equals the current processing date. -/
theorem scheduler_box_spec (today c vf vt d t e u : String) :
    (_set_scheduler_box "" "" today c = c) ∧
    (pySplitS "T" vf = [d, t] → d ≠ "" → d < today → _set_scheduler_box vf "" today c = c) ∧
    (pySplitS "T" vt = [e, u] → e ≠ "" →
      _set_scheduler_box "" vt today c =
        "[epfl_scheduler start_date=\"" ++ today ++ "\" end_date=\"" ++ e ++
          "\" start_time=\"\" end_time=\"" ++ u ++ "\"]" ++ c ++ "[/epfl_scheduler]") := by
  refine ⟨by rfl, ?_, ?_⟩
  · intro hsplit hd hlt
    have hvf : vf ≠ "" := by
      intro hv
      subst hv
      have h2 : ([""] : List String) = [d, t] := hsplit
      simp at h2
    have hsd0 : splitDateTime "" = ("", "") := rfl
    have hsdvf : splitDateTime vf = (d, t) := by
      unfold splitDateTime
      rw [hsplit]
    unfold _set_scheduler_box
    rw [if_neg (by simp [hvf])]
    simp only [hsdvf, hsd0]
    rw [if_pos (show _ ∧ _ ∧ _ from ⟨hd, by trivial, hlt⟩)]
  · intro hsplit he
    have hvt : vt ≠ "" := by
      intro hv
      subst hv
      have h2 : ([""] : List String) = [e, u] := hsplit
      simp at h2
    have hsd0 : splitDateTime "" = ("", "") := rfl
    have hsdvt : splitDateTime vt = (e, u) := by
      unfold splitDateTime
      rw [hsplit]
    unfold _set_scheduler_box
    rw [if_neg (by simp [hvt])]
    simp only [hsdvt, hsd0]
    rw [if_neg (by simp)]
    rw [if_pos (show _ ∧ _ from ⟨by trivial, he⟩)]
    simp only [String.ext_iff, String.data_append, List.append_assoc, List.cons_append,
      List.nil_append]

/-- Closed instance of `scheduler_box_spec` at concrete dates. -/
theorem scheduler_box_spec_witness :
    _set_scheduler_box "" "" "2017-06-01" "C" = "C" ∧
    _set_scheduler_box "2016-01-01T08:00" "" "2017-06-01" "C" = "C" ∧
    _set_scheduler_box "" "2018-01-01T10:00" "2017-06-01" "C" =
      "[epfl_scheduler start_date=\"2017-06-01\" end_date=\"2018-01-01\" start_time=\"\" end_time=\"10:00\"]C[/epfl_scheduler]" := by
  have h := scheduler_box_spec "2017-06-01" "C" "2016-01-01T08:00" "2018-01-01T10:00"
    "2016-01-01" "08:00" "2018-01-01" "10:00"
  have hlt : ("2016-01-01" : String) < "2017-06-01" :=
    String.lt_iff_toList_lt.2 (by decide)
  exact ⟨h.1, h.2.1 (by rfl) (by decide) hlt, (h.2.2 (by rfl) (by decide)).trans (by rfl)⟩

/-! ## C6 — video iframe allow-list -/

/-- C6 counterexample: an iframe whose `src` host (`example.com`) is
outside the video allow-list is nevertheless replaced by the shortcode,
because the code tests substring containment over the whole URL, not
the host. -/
theorem fix_video_iframes_host_counterexample :
    fix_video_iframes [HNode.iframe (some "https://example.com/?v=youtube.com")] =
      [HNode.htext "[epfl_video url=\"https://example.com/?v=youtube.com\"]"] ∧
    hostOf "https://example.com/?v=youtube.com" = "example.com" ∧
    "example.com" ∉ allowedVideoHosts :=
  ⟨by rfl, by rfl, by decide⟩

/-- C6 (amended): `fix_video_iframes` replaces an iframe by a single
`epfl_video` shortcode carrying the iframe's original src URL iff the
non-empty src CONTAINS one of the substrings `youtube.com`,
`youtu.be`, `player.vimeo.com` anywhere in the URL (not: iff its host
is on the allow-list); every iframe whose src contains none of them is
left untouched. -/
theorem fix_video_iframes_substring_match (src : String) (hs : src ≠ "") :
    ((∃ sub ∈ videoSrcSubstrings, pyIn sub src = true) →
      fix_video_iframes [HNode.iframe (some src)] =
        [HNode.htext ("[epfl_video url=\"" ++ src ++ "\"]")]) ∧
    ((∀ sub ∈ videoSrcSubstrings, pyIn sub src = false) →
      fix_video_iframes [HNode.iframe (some src)] = [HNode.iframe (some src)]) := by
  have hb : (src != "") = true := by simp [hs]
  constructor
  · rintro ⟨sub, hsub, hin⟩
    have hm : videoSrcMatch src = true := by
      simp only [videoSrcSubstrings, List.mem_cons, List.not_mem_nil, or_false] at hsub
      rcases hsub with h | h | h <;> subst h <;> simp [videoSrcMatch, hin]
    simp [fix_video_iframes, fixVideoNode, hb, hm]
  · intro hall
    have h1 := hall "youtube.com" (by simp [videoSrcSubstrings])
    have h2 := hall "youtu.be" (by simp [videoSrcSubstrings])
    have h3 := hall "player.vimeo.com" (by simp [videoSrcSubstrings])
    have hm : videoSrcMatch src = false := by
      simp [videoSrcMatch, h1, h2, h3]
    simp [fix_video_iframes, fixVideoNode, hm]

/-- Closed instance of `fix_video_iframes_substring_match` on the
spec's own example URL. -/
theorem fix_video_iframes_substring_match_witness :
    fix_video_iframes [HNode.iframe (some "https://www.youtube.com/embed/xyz")] =
      [HNode.htext "[epfl_video url=\"https://www.youtube.com/embed/xyz\"]"] := by
  have h := (fix_video_iframes_substring_match "https://www.youtube.com/embed/xyz"
    (by decide)).1 ⟨"youtube.com", by simp [videoSrcSubstrings], by decide⟩
  exact h.trans (by rfl)

/-! ## C7 — Snippets boxes, pre-scanned sort fallback -/

theorem snippetsLoop_noSort (hu : Bool) (pages : List (String × String)) (lang way : String) :
    ∀ (entries : List SnippetEntry) (cs : List String),
      snippetsLoop false hu pages lang ⟨way, idxKeyed 0 cs⟩ entries =
        ⟨way, idxKeyed 0 (cs ++ entries.map (renderSnippet hu pages lang))⟩ := by
  intro entries
  induction entries with
  | nil => intro cs; simp [snippetsLoop]
  | cons e es ih =>
    intro cs
    simp only [snippetsLoop, Bool.false_eq_true, if_false, reduceIte,
      BoxSortedGroup.add_box_to_sort]
    rw [show (⟨way, idxKeyed 0 cs⟩ : BoxSortedGroup).boxes.length = cs.length from
      idxKeyed_length 0 cs]
    rw [dictInsert_idxKeyed]
    have hih := ih (cs ++ [renderSnippet hu pages lang e])
    simpa [List.append_assoc] using hih

/-- C7: for a Snippets box with a non-empty (well-formed) sort
descriptor, the entries are pre-scanned before any rendering; if any
entry lacks the named sort tag or has an empty sort value, sorting is
disabled for the whole group, every entry falls back to an
insertion-index key (so the output is the rendered entries in document
order, reversed only by a `desc` direction), and `set_box_snippets`
returns without raising. -/
theorem set_box_snippets_sort_fallback (bt : String) (hu : Bool)
    (pages : List (String × String)) (lang sp sw : String) (entries : List SnippetEntry)
    (hsp : sp ≠ "") (hq : (pySplitS ";" sp).get? 1 = some sw)
    (hbad : ∃ e ∈ entries, e.sortTags = [] ∨ e.sortTags.headD "" = "") :
    set_box_snippets bt hu pages lang sp entries =
      Except.ok ((if bt ≠ "" then "<h3>" ++ bt ++ "</h3>" else "") ++
        joinS (maybeRev sw (entries.map (renderSnippet hu pages lang)))) := by
  unfold set_box_snippets
  rw [if_pos hsp]
  simp only [pyIdxE, hq]
  have hany : (entries.any (fun s => s.sortTags.isEmpty || s.sortTags.headD "" == "")) = true := by
    rw [List.any_eq_true]
    obtain ⟨e, he, hbad1⟩ := hbad
    refine ⟨e, he, ?_⟩
    rcases hbad1 with h1 | h1
    · simp [h1]
    · simp only [List.headD_eq_head?_getD] at h1
      simp [h1]
  rw [hany]
  simp only [Bool.and_true, Bool.not_true, Bool.and_false]
  have hl := snippetsLoop_noSort hu pages lang sw entries []
  rw [show (idxKeyed 0 [] : List (BoxKey × String)) = [] from rfl, List.nil_append] at hl
  rw [hl, get_sorted_boxes_idxKeyed]

/-- Closed instance of `set_box_snippets_sort_fallback`: one snippet
without the sort tag under a `desc` descriptor still renders, keyed by
its index. -/
theorem set_box_snippets_sort_fallback_witness :
    set_box_snippets "" false [] "en" "epfl_simple_main_snippetList_title;desc;false;false"
      [⟨[], "t", "s", "d", "i", "b", "z", "", "", "", ""⟩] =
      Except.ok "[epfl_snippets url=\"\" title=\"t\" subtitle=\"s\" image=\"i\" big_image=\"b\" enable_zoom=\"z\"]d[/epfl_snippets]" := by
  have h := set_box_snippets_sort_fallback "" false [] "en"
    "epfl_simple_main_snippetList_title;desc;false;false" "desc"
    [⟨[], "t", "s", "d", "i", "b", "z", "", "", "", ""⟩]
    (by decide) (by rfl) ⟨⟨[], "t", "s", "d", "i", "b", "z", "", "", "", ""⟩, by simp, Or.inl rfl⟩
  exact h.trans (by rfl)

/-! ## C8 — news URL parameter extraction -/

/-- C8: evaluating `_extract_epfl_news_parameters` at a query holding
the multi-valued `themes` (and `project`) parameters: the code guards
with key `themes` but then reads key `theme`, so the call raises
`KeyError` instead of returning the full themes list — the guard
contradicts the access it is supposed to protect. -/
theorem extract_news_params_themes_keyerror :
    _extract_epfl_news_parameters [("channel", ["1"]), ("themes", ["a"]), ("project", ["b"])] =
      Except.error "KeyError: theme" := by rfl

/-! ## C9 — box type resolution -/

/-- C9: `set_type` assigns the canonical tag for each of the known
identifiers, the raw identifier unchanged when non-empty but
unrecognized, and leaves the type empty when the identifier is
missing, in which case the box content stays the empty string (no
transformer runs); repeated resolution of the same identifier yields
the same result (pure lookup). -/
theorem set_type_resolution (p : String) (render : String → String)
    (hp : p ≠ "") (hu : lookupAssoc jahia_box_types p = none) :
    (∀ kv ∈ jahia_box_types, set_type kv.1 = kv.2) ∧
    set_type p = p ∧
    (set_type "" = "" ∧ box_content_after_init "" render = "") ∧
    set_type p = set_type p := by
  refine ⟨by decide, ?_, ⟨rfl, rfl⟩, rfl⟩
  unfold set_type
  rw [if_neg hp, hu]

/-- Closed instance of `set_type_resolution`: an unknown identifier
passes through, a known one resolves to its canonical tag. -/
theorem set_type_resolution_witness :
    set_type "epfl:fooBox" = "epfl:fooBox" ∧ set_type "epfl:textBox" = "text" := by
  have h := set_type_resolution "epfl:fooBox" (fun _ => "X") (by decide) (by rfl)
  exact ⟨h.2.1, h.1 ("epfl:textBox", "text") (by decide)⟩

/-! ## C10 — htaccess marker extraction -/

theorem firstIdx_ne_nil {sep s : List Char} {i : Nat} (hsep : sep ≠ [])
    (h : firstIdx sep s = some i) : s ≠ [] := by
  intro hs
  subst hs
  cases sep with
  | nil => exact hsep rfl
  | cons a as => simp [firstIdx, List.isPrefixOf] at h

theorem pySplitAux_of_none {sep s : List Char} (h : firstIdx sep s = none) :
    ∀ fuel, pySplitAux sep fuel s = [s] := by
  intro fuel
  cases fuel with
  | zero => rfl
  | succ n => simp [pySplitAux, h]

theorem pySplit_getD_one {sep s : List Char} {i : Nat} (hsep : sep ≠ [])
    (h : firstIdx sep s = some i) :
    (pySplit sep s).getD 1 [] = segUpTo sep (s.drop (i + sep.length)) := by
  unfold pySplit
  simp only [pySplitAux, h]
  cases hrest : firstIdx sep (s.drop (i + sep.length)) with
  | none =>
    rw [pySplitAux_of_none hrest]
    simp [segUpTo, hrest]
  | some k =>
    have hlen : s.length ≠ 0 := by
      have hnil := firstIdx_ne_nil hsep h
      simpa [List.length_eq_zero] using hnil
    obtain ⟨m, hm⟩ : ∃ m, s.length = m + 1 := ⟨s.length - 1, by omega⟩
    rw [hm]
    simp only [pySplitAux, hrest]
    simp [segUpTo, hrest]

theorem pySplit_headD (sep s : List Char) :
    (pySplit sep s).headD [] = segUpTo sep s := by
  unfold pySplit segUpTo
  cases h : firstIdx sep s with
  | none =>
    rw [pySplitAux_of_none h]
    rfl
  | some k => simp [pySplitAux, h]

/-- C10 counterexample: on content with a second start marker between
the first start marker and the end marker, `extract_htaccess_part`
stops at that second start marker (Python `split` semantics), while
the claim's reading — the text between the first start marker and the
first end marker following it — keeps it; the two outputs differ. -/
theorem extract_htaccess_counterexample :
    extract_htaccess_part "# BEGIN M a # BEGIN M b # END M" "M" = "# BEGIN M\n a \n# END M" ∧
    specHtaccessExtract "# BEGIN M a # BEGIN M b # END M" "M" =
      "# BEGIN M\n a # BEGIN M b \n# END M" ∧
    extract_htaccess_part "# BEGIN M a # BEGIN M b # END M" "M" ≠
      specHtaccessExtract "# BEGIN M a # BEGIN M b # END M" "M" :=
  ⟨by decide, by decide, by decide⟩

/-- C10 (amended): `extract_htaccess_part` returns `""` unless both
markers occur; when both occur, it returns the start marker, the text
after the first start marker truncated first at the next occurrence of
the start marker (if any) and then at the first end marker within that
segment (if any), and the end marker, joined by newlines; the input is
left unmodified (the function is pure). -/
theorem extract_htaccess_amended (content marker : String) (i : Nat)
    (hs : firstIdx ("# BEGIN " ++ marker).data content.data = some i)
    (he : ¬ firstIdx ("# END " ++ marker).data content.data = none) :
    extract_htaccess_part content marker =
      ("# BEGIN " ++ marker) ++ "\n" ++
        String.mk (segUpTo ("# END " ++ marker).data
          (segUpTo ("# BEGIN " ++ marker).data
            (content.data.drop (i + ("# BEGIN " ++ marker).data.length)))) ++
        ("\n" ++ ("# END " ++ marker)) := by
  unfold extract_htaccess_part
  rw [if_neg (not_or.2 ⟨by rw [hs]; simp, he⟩)]
  have hsep : ("# BEGIN " ++ marker).data ≠ [] := by
    intro hd
    have h0 := congrArg List.length hd
    rw [show ("# BEGIN " ++ marker).data.length = ("# BEGIN " ++ marker).length from rfl] at h0
    rw [String.length_append] at h0
    have h8 : ("# BEGIN " : String).length = 8 := rfl
    rw [h8] at h0
    simp at h0
  simp only [pySplit_getD_one hsep hs, pySplit_headD, pyJoin]
  simp [String.append_assoc]

/-- Closed instance of `extract_htaccess_amended`. -/
theorem extract_htaccess_amended_witness :
    extract_htaccess_part "# BEGIN X hi # END X" "X" = "# BEGIN X\n hi \n# END X" := by
  have h := extract_htaccess_amended "# BEGIN X hi # END X" "X" 0 (by decide) (by decide)
  exact h.trans (by decide)
